import Mathlib

/-!
Shallow embedding of `app/websocket_manager.py` (class `ConnectionManager`).

The four registry maps are modelled as association lists with Python `dict`
semantics (assignment replaces an existing key in place, otherwise appends;
`pop` deletes the key), and Python `set`s of client ids as duplicate-free
lists (`add` appends when absent, `remove` deletes).  WebSocket handles are
opaque numbers; `datetime.now()` values are opaque numbers passed in as a
`now` argument; the optional `db` session is an external collaborator and is
not part of the registry state.  Send failures (`WebSocketDisconnect` raised
by `websocket.send_text`) are modelled by a `sendOk` oracle on handles.
-/

namespace WSManager

/-- Python `d.get(k)` / `k in d` on a dict modelled as an association list. -/
def lookupA {α β : Type} [DecidableEq α] (k : α) : List (α × β) → Option β
  | [] => none
  | (k', v) :: t => if k' = k then some v else lookupA k t

/-- Python `d[k] = v`: replace the value of an existing key in place,
otherwise append the new binding at the end. -/
def insertA {α β : Type} [DecidableEq α] (k : α) (v : β) : List (α × β) → List (α × β)
  | [] => [(k, v)]
  | (k', v') :: t => if k' = k then (k, v) :: t else (k', v') :: insertA k v t

/-- Python `d.pop(k)`: delete the key. -/
def eraseA {α β : Type} [DecidableEq α] (k : α) (l : List (α × β)) : List (α × β) :=
  l.filter (fun p => decide (p.1 ≠ k))

/-- The key list of a dict. -/
def keysA {α β : Type} (l : List (α × β)) : List α := l.map Prod.fst

/-- Python `s.add(x)` on a set modelled as a duplicate-free list. -/
def addS {α : Type} [DecidableEq α] (x : α) (l : List α) : List α :=
  if x ∈ l then l else l ++ [x]

/-- Python `s.remove(x)` (callers guard membership first). -/
def removeS {α : Type} [DecidableEq α] (x : α) (l : List α) : List α := l.erase x

/-- Python truthiness of an `Optional[int]`: `None` and `0` are falsy. -/
def truthy : Option Int → Bool
  | none => false
  | some n => n != 0

/-- The metadata dict stored in `connection_info[client_id]`. -/
structure ConnInfo where
  user_id : Option Int
  room_id : Option Int
  connected_at : Nat
  last_active : Nat
deriving DecidableEq, Repr

/-- The four registry maps of `ConnectionManager`. -/
structure ConnectionManager where
  active_connections : List (String × Nat)
  room_connections : List (Int × List String)
  user_connections : List (Int × List String)
  connection_info : List (String × ConnInfo)
deriving DecidableEq, Repr

/-- `ConnectionManager.__init__`: all four maps empty. -/
def initManager : ConnectionManager := ⟨[], [], [], []⟩

/-- `if rid not in idx: idx[rid] = set()` followed by `idx[rid].add(cid)` —
the room/user index insertion pattern of `connect` and `join_room`. -/
def indexAdd (rid : Int) (cid : String) (idx : List (Int × List String)) :
    List (Int × List String) :=
  match lookupA rid idx with
  | none => insertA rid (addS cid []) idx
  | some ms => insertA rid (addS cid ms) idx

/-- `if oid and oid in idx: idx[oid].discard-style removal` — the room/user
index cleanup block of `disconnect`: remove `cid` from the entry when
present, then pop the entry when it became empty. -/
def indexRemove (oid : Option Int) (cid : String) (idx : List (Int × List String)) :
    List (Int × List String) :=
  if truthy oid then
    match lookupA (oid.getD 0) idx with
    | some ms =>
      let ms' := if cid ∈ ms then removeS cid ms else ms
      if ms' = [] then eraseA (oid.getD 0) idx else insertA (oid.getD 0) ms' idx
    | none => idx
  else idx

/-- `ConnectionManager.connect` (the registry mutation after `accept()`; the
`db` write is external).  `client_id` falsy (None or the empty string) makes
the code use a freshly generated uuid, here the `fresh` argument. -/
def connect (m : ConnectionManager) (websocket : Nat) (client_id : Option String)
    (fresh : String) (user_id room_id : Option Int) (now : Nat) :
    String × ConnectionManager :=
  let cid := match client_id with
    | none => fresh
    | some c => if c = "" then fresh else c
  (cid,
   { active_connections := insertA cid websocket m.active_connections,
     room_connections :=
       if truthy room_id then indexAdd (room_id.getD 0) cid m.room_connections
       else m.room_connections,
     user_connections :=
       if truthy user_id then indexAdd (user_id.getD 0) cid m.user_connections
       else m.user_connections,
     connection_info := insertA cid ⟨user_id, room_id, now, now⟩ m.connection_info })

/-- `ConnectionManager.disconnect` (the `db` update is external).  Early
return when the id is not in `active_connections`; otherwise pop the handle
and the metadata, and clean the room/user index entries recorded in the
metadata. -/
def disconnect (m : ConnectionManager) (client_id : String) : ConnectionManager :=
  if lookupA client_id m.active_connections = none then m
  else
    { active_connections := eraseA client_id m.active_connections,
      room_connections :=
        indexRemove
          (match lookupA client_id m.connection_info with
           | some r => r.room_id
           | none => none)
          client_id m.room_connections,
      user_connections :=
        indexRemove
          (match lookupA client_id m.connection_info with
           | some r => r.user_id
           | none => none)
          client_id m.user_connections,
      connection_info := eraseA client_id m.connection_info }

/-- `ConnectionManager.join_room` (the `db` update is external). -/
def join_room (m : ConnectionManager) (client_id : String) (room_id : Int) :
    Bool × ConnectionManager :=
  if lookupA client_id m.active_connections = none then (false, m)
  else
    (true,
     { m with
       room_connections := indexAdd room_id client_id m.room_connections,
       connection_info :=
         match lookupA client_id m.connection_info with
         | some r =>
           insertA client_id { r with room_id := some room_id } m.connection_info
         | none => m.connection_info })

/-- `ConnectionManager.leave_room` (the `db` update is external). -/
def leave_room (m : ConnectionManager) (client_id : String) (room_id : Int) :
    Bool × ConnectionManager :=
  match lookupA room_id m.room_connections with
  | none => (false, m)
  | some ms =>
    if client_id ∈ ms then
      let ms' := removeS client_id ms
      (true,
       { m with
         room_connections :=
           if ms' = [] then eraseA room_id m.room_connections
           else insertA room_id ms' m.room_connections,
         connection_info :=
           match lookupA client_id m.connection_info with
           | some r => insertA client_id { r with room_id := none } m.connection_info
           | none => m.connection_info })
    else (false, m)

/-- The `schemas.WSConnectionInfo` record returned by `get_connections_info`. -/
structure WSConnectionInfo where
  total_connections : Nat
  active_connections : Nat
  connections_by_room : List (Int × Nat)
deriving DecidableEq, Repr

/-- `ConnectionManager.get_connections_info`: reads the registry only. -/
def get_connections_info (m : ConnectionManager) : WSConnectionInfo :=
  { total_connections := m.connection_info.length,
    active_connections := m.active_connections.length,
    connections_by_room := m.room_connections.map (fun p => (p.1, p.2.length)) }

/-- One loop iteration of `broadcast_to_room`: skip ids with no live handle,
send (success updates `last_active` and records a delivery, a
`WebSocketDisconnect` records the id for cleanup).  The accumulator is
(registry state, delivered ids, ids collected in `disconnected`). -/
def bStep (sendOk : Nat → Bool) (now : Nat)
    (acc : ConnectionManager × List String × List String) (client_id : String) :
    ConnectionManager × List String × List String :=
  match lookupA client_id acc.1.active_connections with
  | none => acc
  | some websocket =>
    if sendOk websocket then
      ({ acc.1 with
         connection_info :=
           match lookupA client_id acc.1.connection_info with
           | some r =>
             insertA client_id { r with last_active := now } acc.1.connection_info
           | none => acc.1.connection_info },
       acc.2.1 ++ [client_id], acc.2.2)
    else (acc.1, acc.2.1, acc.2.2 ++ [client_id])

/-- `ConnectionManager.broadcast_to_room`: early return when the room has no
entry; otherwise attempt a send per member and afterwards `disconnect` every
id whose send raised.  Returns (final state, delivered ids, ids cleaned). -/
def broadcast_to_room (m : ConnectionManager) (message : Nat) (room_id : Int)
    (sendOk : Nat → Bool) (now : Nat) :
    ConnectionManager × List String × List String :=
  match lookupA room_id m.room_connections with
  | none => (m, [], [])
  | some ms =>
    let r := ms.foldl (bStep sendOk now) (m, [], [])
    (r.2.2.foldl (fun acc cid => disconnect acc cid) r.1, r.2.1, r.2.2)

/-- A registry operation for whole-trace statements.  `conn` supplies the
client id explicitly (the code path with a truthy `client_id` argument) and
the opaque handle; timestamps are fixed at 0. -/
inductive Op where
  | conn (client_id : String) (websocket : Nat) (user_id room_id : Option Int)
  | disc (client_id : String)
  | joinR (client_id : String) (room_id : Int)
  | leaveR (client_id : String) (room_id : Int)
deriving DecidableEq, Repr

/-- Apply one operation to the registry. -/
def applyOp (m : ConnectionManager) : Op → ConnectionManager
  | .conn cid ws uid rid => (connect m ws (some cid) cid uid rid 0).2
  | .disc cid => disconnect m cid
  | .joinR cid rid => (join_room m cid rid).2
  | .leaveR cid rid => (leave_room m cid rid).2

/-- Run a trace of operations from the freshly initialised manager. -/
def runOps (ops : List Op) : ConnectionManager :=
  ops.foldl applyOp initManager

/-- Number of `conn` operations in a trace: how many connections were ever
registered. -/
def numConnects : List Op → Nat
  | [] => 0
  | Op.conn _ _ _ _ :: t => numConnects t + 1
  | _ :: t => numConnects t

/-- The member set of a room (empty when the room has no entry). -/
def membersOf (rid : Int) (m : ConnectionManager) : List String :=
  (lookupA rid m.room_connections).getD []

/-- The connection set of a user (empty when the user has no entry). -/
def userMembersOf (uid : Int) (m : ConnectionManager) : List String :=
  (lookupA uid m.user_connections).getD []

/-- Every id stored in an index entry has a live handle. -/
def indexSubsetActive (idx : List (Int × List String)) (m : ConnectionManager) : Prop :=
  ∀ p ∈ idx, ∀ cid ∈ p.2, lookupA cid m.active_connections ≠ none

/-- No index entry holds an empty set. -/
def noEmptyIndexEntry (idx : List (Int × List String)) : Prop :=
  ∀ p ∈ idx, p.2 ≠ []

/-- The spec's registry invariant: room and user indices reference only live
handles and hold no empty sets. -/
def registryInvariant (m : ConnectionManager) : Prop :=
  indexSubsetActive m.room_connections m ∧ indexSubsetActive m.user_connections m ∧
  noEmptyIndexEntry m.room_connections ∧ noEmptyIndexEntry m.user_connections

/-- The handle map and the metadata map have the same keys. -/
def keysEq (m : ConnectionManager) : Prop :=
  keysA m.active_connections = keysA m.connection_info

/-- Whether a send attempt to `cid` happens and succeeds: the id has a
handle in `a` and the handle's send works. -/
def sendAttemptOk (a : List (String × Nat)) (sendOk : Nat → Bool) (cid : String) : Bool :=
  match lookupA cid a with
  | some w => sendOk w
  | none => false

/-- Whether a send attempt to `cid` happens and raises: the id has a handle
in `a` and the handle's send fails. -/
def sendAttemptFail (a : List (String × Nat)) (sendOk : Nat → Bool) (cid : String) : Bool :=
  match lookupA cid a with
  | some w => !sendOk w
  | none => false

/-- Trace: connect c, join rooms 5 then 7, disconnect. -/
def C1trace : List Op :=
  [Op.conn "c" 0 none none, Op.joinR "c" 5, Op.joinR "c" 7, Op.disc "c"]

/-- Trace: connect c, join rooms 5 then 7. -/
def C2trace : List Op := [Op.conn "c" 0 none none, Op.joinR "c" 5, Op.joinR "c" 7]

/-- Trace: one connect followed by its disconnect. -/
def C7trace : List Op := [Op.conn "a" 0 none none, Op.disc "a"]

/-- Registry with clients a, b, s (handles 10, 11, 12) all in room 2. -/
def wBroadcastMgr : ConnectionManager :=
  runOps [Op.conn "a" 10 none none, Op.conn "b" 11 none none,
          Op.conn "s" 12 none none,
          Op.joinR "a" 2, Op.joinR "b" 2, Op.joinR "s" 2]

/-- A send oracle under which only handle 12 fails. -/
def wSendOk : Nat → Bool := fun w => w != 12

/-- Registry with client b as the sole member of room 1. -/
def wm6 : ConnectionManager := runOps [Op.conn "b" 0 none none, Op.joinR "b" 1]

/-- Registry with client a registered and a member of room 3. -/
def wm10 : ConnectionManager := runOps [Op.conn "a" 0 none (some 3)]

theorem lookupA_insertA_self {α β : Type} [DecidableEq α] (k : α) (v : β)
    (l : List (α × β)) : lookupA k (insertA k v l) = some v := by
  induction l with
  | nil => simp [insertA, lookupA]
  | cons p t ih =>
    obtain ⟨a, b⟩ := p
    by_cases h : a = k
    · simp [insertA, lookupA, h]
    · simp [insertA, lookupA, h, ih]

theorem keysA_cons {α β : Type} (a : α) (b : β) (t : List (α × β)) :
    keysA ((a, b) :: t) = a :: keysA t := rfl

theorem insertA_cons {α β : Type} [DecidableEq α] (k a : α) (v b : β)
    (t : List (α × β)) :
    insertA k v ((a, b) :: t) =
      if a = k then (k, v) :: t else (a, b) :: insertA k v t := by
  by_cases h : a = k <;> simp [insertA, h]

theorem eraseA_cons {α β : Type} [DecidableEq α] (k a : α) (b : β)
    (t : List (α × β)) :
    eraseA k ((a, b) :: t) =
      if a = k then eraseA k t else (a, b) :: eraseA k t := by
  by_cases h : a = k <;> simp [eraseA, List.filter_cons, h]

theorem lookupA_insertA_ne {α β : Type} [DecidableEq α] {k k' : α} (v : β)
    (l : List (α × β)) (h : k' ≠ k) : lookupA k' (insertA k v l) = lookupA k' l := by
  have h' : ¬ k = k' := fun e => h e.symm
  induction l with
  | nil => simp [insertA, lookupA, h']
  | cons p t ih =>
    obtain ⟨a, b⟩ := p
    rw [insertA_cons]
    by_cases ha : a = k
    · rw [if_pos ha]
      simp [lookupA, h', ha]
    · rw [if_neg ha]
      simp [lookupA, ih]

theorem lookupA_eraseA_self {α β : Type} [DecidableEq α] (k : α) (l : List (α × β)) :
    lookupA k (eraseA k l) = none := by
  induction l with
  | nil => rfl
  | cons p t ih =>
    obtain ⟨a, b⟩ := p
    rw [eraseA_cons]
    by_cases h : a = k
    · rw [if_pos h]
      exact ih
    · rw [if_neg h]
      simpa [lookupA, h] using ih

theorem lookupA_eraseA_ne {α β : Type} [DecidableEq α] {k k' : α} (l : List (α × β))
    (h : k' ≠ k) : lookupA k' (eraseA k l) = lookupA k' l := by
  have h' : ¬ k = k' := fun e => h e.symm
  induction l with
  | nil => rfl
  | cons p t ih =>
    obtain ⟨a, b⟩ := p
    rw [eraseA_cons]
    by_cases ha : a = k
    · rw [if_pos ha, ih]
      have haK : ¬ a = k' := fun e => h' (ha.symm.trans e)
      simp [lookupA, haK]
    · rw [if_neg ha]
      simp [lookupA, ih]

theorem keysA_insertA {α β : Type} [DecidableEq α] (k : α) (v : β) (l : List (α × β)) :
    keysA (insertA k v l) = if k ∈ keysA l then keysA l else keysA l ++ [k] := by
  induction l with
  | nil => simp [insertA, keysA]
  | cons p t ih =>
    obtain ⟨a, b⟩ := p
    rw [insertA_cons]
    by_cases h : a = k
    · rw [if_pos h, keysA_cons, keysA_cons, h]
      simp
    · rw [if_neg h, keysA_cons, keysA_cons, ih]
      have hk : ¬ k = a := fun e => h e.symm
      by_cases hmem : k ∈ keysA t
      · simp [hmem, hk]
      · simp [hmem, hk]

theorem keysA_eraseA {α β : Type} [DecidableEq α] (k : α) (l : List (α × β)) :
    keysA (eraseA k l) = (keysA l).filter (fun x => decide (x ≠ k)) := by
  induction l with
  | nil => rfl
  | cons p t ih =>
    obtain ⟨a, b⟩ := p
    rw [eraseA_cons]
    by_cases h : a = k
    · rw [if_pos h, ih, keysA_cons]
      simp [List.filter_cons, h]
    · rw [if_neg h, keysA_cons, keysA_cons, ih]
      simp [List.filter_cons, h]

theorem lookupA_none_iff {α β : Type} [DecidableEq α] (k : α) (l : List (α × β)) :
    lookupA k l = none ↔ k ∉ keysA l := by
  induction l with
  | nil => simp [lookupA, keysA]
  | cons p t ih =>
    obtain ⟨a, b⟩ := p
    rw [keysA_cons]
    by_cases h : a = k
    · subst h
      simp [lookupA]
    · have hk : ¬ k = a := fun e => h e.symm
      simp [lookupA, h, hk, ih]

theorem mem_keysA_of_lookupA {α β : Type} [DecidableEq α] {k : α} {v : β}
    {l : List (α × β)} (h : lookupA k l = some v) : k ∈ keysA l := by
  by_contra hk
  rw [← lookupA_none_iff] at hk
  rw [h] at hk
  cases hk

theorem mem_addS {α : Type} [DecidableEq α] {x : α} (y : α) {l : List α}
    (h : x ∈ l) : x ∈ addS y l := by
  unfold addS
  split
  · exact h
  · exact List.mem_append.mpr (Or.inl h)

theorem mem_addS_self {α : Type} [DecidableEq α] (y : α) (l : List α) :
    y ∈ addS y l := by
  unfold addS
  split
  · assumption
  · exact List.mem_append.mpr (Or.inr (List.mem_singleton.mpr rfl))

theorem disconnect_not_found (m : ConnectionManager) (cid : String)
    (h : lookupA cid m.active_connections = none) : disconnect m cid = m := by
  unfold disconnect
  rw [if_pos h]

theorem disconnect_active (m : ConnectionManager) (cid : String) :
    (disconnect m cid).active_connections =
      if lookupA cid m.active_connections = none then m.active_connections
      else eraseA cid m.active_connections := by
  by_cases h : lookupA cid m.active_connections = none
  · rw [if_pos h, disconnect_not_found m cid h]
  · unfold disconnect
    rw [if_neg h, if_neg h]

theorem disconnect_active_none (m : ConnectionManager) (cid : String) :
    lookupA cid (disconnect m cid).active_connections = none := by
  rw [disconnect_active]
  by_cases h : lookupA cid m.active_connections = none
  · rw [if_pos h]
    exact h
  · rw [if_neg h]
    exact lookupA_eraseA_self cid m.active_connections

theorem disconnect_active_mono (m : ConnectionManager) (c d : String)
    (h : lookupA c m.active_connections = none) :
    lookupA c (disconnect m d).active_connections = none := by
  rw [disconnect_active]
  split
  · exact h
  · by_cases hcd : c = d
    · subst hcd
      exact lookupA_eraseA_self c m.active_connections
    · rw [lookupA_eraseA_ne m.active_connections hcd]
      exact h

theorem foldl_disconnect_preserve (l : List String) (m : ConnectionManager)
    (c : String) (h : lookupA c m.active_connections = none) :
    lookupA c (l.foldl (fun acc cid => disconnect acc cid) m).active_connections = none := by
  induction l generalizing m with
  | nil => exact h
  | cons d t ih => exact ih (disconnect m d) (disconnect_active_mono m c d h)

theorem foldl_disconnect_none (l : List String) (m : ConnectionManager)
    (c : String) (hc : c ∈ l) :
    lookupA c (l.foldl (fun acc cid => disconnect acc cid) m).active_connections = none := by
  induction l generalizing m with
  | nil => cases hc
  | cons d t ih =>
    rcases List.mem_cons.mp hc with h | h
    · subst h
      exact foldl_disconnect_preserve t (disconnect m c) c (disconnect_active_none m c)
    · exact ih (disconnect m d) h

theorem bStep_eq_skip (sendOk : Nat → Bool) (now : Nat) (m : ConnectionManager)
    (del disc : List String) (c : String)
    (h : lookupA c m.active_connections = none) :
    bStep sendOk now (m, del, disc) c = (m, del, disc) := by
  unfold bStep
  simp only [h]

theorem bStep_eq_ok (sendOk : Nat → Bool) (now : Nat) (m : ConnectionManager)
    (del disc : List String) (c : String) (w : Nat)
    (hw : lookupA c m.active_connections = some w) (hs : sendOk w = true) :
    bStep sendOk now (m, del, disc) c =
      ({ m with connection_info :=
          match lookupA c m.connection_info with
          | some r => insertA c { r with last_active := now } m.connection_info
          | none => m.connection_info },
       del ++ [c], disc) := by
  unfold bStep
  simp only [hw, hs, if_true]

theorem bStep_eq_fail (sendOk : Nat → Bool) (now : Nat) (m : ConnectionManager)
    (del disc : List String) (c : String) (w : Nat)
    (hw : lookupA c m.active_connections = some w) (hs : sendOk w = false) :
    bStep sendOk now (m, del, disc) c = (m, del, disc ++ [c]) := by
  unfold bStep
  simp only [hw, hs, Bool.false_eq_true, if_false]

theorem bFold_spec (sendOk : Nat → Bool) (now : Nat) (ms : List String) :
    ∀ (m : ConnectionManager) (del disc : List String),
      (ms.foldl (bStep sendOk now) (m, del, disc)).1.active_connections =
        m.active_connections ∧
      (ms.foldl (bStep sendOk now) (m, del, disc)).1.room_connections =
        m.room_connections ∧
      (ms.foldl (bStep sendOk now) (m, del, disc)).1.user_connections =
        m.user_connections ∧
      (ms.foldl (bStep sendOk now) (m, del, disc)).2.1 =
        del ++ ms.filter (fun c => sendAttemptOk m.active_connections sendOk c) ∧
      (ms.foldl (bStep sendOk now) (m, del, disc)).2.2 =
        disc ++ ms.filter (fun c => sendAttemptFail m.active_connections sendOk c) := by
  induction ms with
  | nil =>
    intro m del disc
    simp
  | cons c t ih =>
    intro m del disc
    simp only [List.foldl_cons, List.filter_cons]
    cases hl : lookupA c m.active_connections with
    | none =>
      rw [bStep_eq_skip sendOk now m del disc c hl]
      have hok : sendAttemptOk m.active_connections sendOk c = false := by
        unfold sendAttemptOk
        rw [hl]
      have hfail : sendAttemptFail m.active_connections sendOk c = false := by
        unfold sendAttemptFail
        rw [hl]
      simp only [hok, hfail, Bool.false_eq_true, if_false]
      exact ih m del disc
    | some w =>
      by_cases hs : sendOk w = true
      · rw [bStep_eq_ok sendOk now m del disc c w hl hs]
        have hok : sendAttemptOk m.active_connections sendOk c = true := by
          unfold sendAttemptOk
          rw [hl]
          exact hs
        have hfail : sendAttemptFail m.active_connections sendOk c = false := by
          unfold sendAttemptFail
          rw [hl]
          simp [hs]
        simp only [hok, hfail, Bool.false_eq_true, if_false, if_true]
        obtain ⟨h1, h2, h3, h4, h5⟩ :=
          ih ({ m with connection_info :=
                match lookupA c m.connection_info with
                | some r => insertA c { r with last_active := now } m.connection_info
                | none => m.connection_info })
            (del ++ [c]) disc
        refine ⟨h1, h2, h3, ?_, ?_⟩
        · rw [h4]
          all_goals simp
        · rw [h5]
      · have hs' : sendOk w = false := by
          simpa using hs
        rw [bStep_eq_fail sendOk now m del disc c w hl hs']
        have hok : sendAttemptOk m.active_connections sendOk c = false := by
          unfold sendAttemptOk
          rw [hl]
          exact hs'
        have hfail : sendAttemptFail m.active_connections sendOk c = true := by
          unfold sendAttemptFail
          rw [hl]
          simp [hs']
        simp only [hok, hfail, Bool.false_eq_true, if_false, if_true]
        obtain ⟨h1, h2, h3, h4, h5⟩ := ih m del (disc ++ [c])
        refine ⟨h1, h2, h3, ?_, ?_⟩
        · rw [h4]
        · rw [h5]
          all_goals simp

theorem keysEq_connect (m : ConnectionManager) (ws : Nat) (cidOpt : Option String)
    (fresh : String) (uid rid : Option Int) (now : Nat) (h : keysEq m) :
    keysEq (connect m ws cidOpt fresh uid rid now).2 := by
  unfold keysEq at h ⊢
  unfold connect
  dsimp only
  rw [keysA_insertA, keysA_insertA, h]

theorem keysEq_disconnect (m : ConnectionManager) (cid : String) (h : keysEq m) :
    keysEq (disconnect m cid) := by
  by_cases hl : lookupA cid m.active_connections = none
  · rw [disconnect_not_found m cid hl]
    exact h
  · unfold keysEq at h ⊢
    unfold disconnect
    rw [if_neg hl]
    dsimp only
    rw [keysA_eraseA, keysA_eraseA, h]

theorem keysEq_join_room (m : ConnectionManager) (cid : String) (rid : Int)
    (h : keysEq m) : keysEq (join_room m cid rid).2 := by
  unfold join_room
  by_cases hl : lookupA cid m.active_connections = none
  · rw [if_pos hl]
    exact h
  · rw [if_neg hl]
    unfold keysEq at h ⊢
    dsimp only
    cases hi : lookupA cid m.connection_info with
    | none => exact h
    | some r =>
      rw [keysA_insertA, if_pos (mem_keysA_of_lookupA hi)]
      exact h

theorem keysEq_leave_room (m : ConnectionManager) (cid : String) (rid : Int)
    (h : keysEq m) : keysEq (leave_room m cid rid).2 := by
  cases hr : lookupA rid m.room_connections with
  | none =>
    unfold leave_room
    simp only [hr]
    exact h
  | some ms =>
    unfold leave_room
    simp only [hr]
    by_cases hm : cid ∈ ms
    · simp only [hm, if_true]
      unfold keysEq at h ⊢
      cases hi : lookupA cid m.connection_info with
      | none =>
        simp only [hi]
        exact h
      | some r =>
        simp only [hi]
        rw [keysA_insertA, if_pos (mem_keysA_of_lookupA hi)]
        exact h
    · simp only [hm, if_false]
      exact h

theorem keysEq_applyOp (m : ConnectionManager) (op : Op) (h : keysEq m) :
    keysEq (applyOp m op) := by
  cases op with
  | conn cid ws uid rid => exact keysEq_connect m ws (some cid) cid uid rid 0 h
  | disc cid => exact keysEq_disconnect m cid h
  | joinR cid rid => exact keysEq_join_room m cid rid h
  | leaveR cid rid => exact keysEq_leave_room m cid rid h

theorem keysEq_foldl (ops : List Op) :
    ∀ (m : ConnectionManager), keysEq m → keysEq (ops.foldl applyOp m) := by
  induction ops with
  | nil =>
    intro m h
    exact h
  | cons op t ih =>
    intro m h
    exact ih (applyOp m op) (keysEq_applyOp m op h)

theorem keysEq_runOps (ops : List Op) : keysEq (runOps ops) :=
  keysEq_foldl ops initManager rfl

theorem indexAdd_mem_mono (rid : Int) (cid x : String)
    (idx : List (Int × List String)) (r' : Int)
    (h : x ∈ (lookupA r' idx).getD []) :
    x ∈ (lookupA r' (indexAdd rid cid idx)).getD [] := by
  unfold indexAdd
  by_cases hr : r' = rid
  · subst hr
    cases hl : lookupA r' idx with
    | none =>
      rw [hl] at h
      cases h
    | some ms =>
      rw [hl] at h
      simp only [hl]
      rw [lookupA_insertA_self]
      exact mem_addS cid h
  · cases hl : lookupA rid idx with
    | none =>
      simp only [hl]
      rw [lookupA_insertA_ne (addS cid []) idx hr]
      exact h
    | some ms =>
      simp only [hl]
      rw [lookupA_insertA_ne (addS cid ms) idx hr]
      exact h

theorem broadcast_to_room_eq (m : ConnectionManager) (msg : Nat) (rid : Int)
    (sendOk : Nat → Bool) (now : Nat) (ms : List String)
    (h : lookupA rid m.room_connections = some ms) :
    (broadcast_to_room m msg rid sendOk now).2.1 =
      ms.filter (fun c => sendAttemptOk m.active_connections sendOk c) ∧
    (broadcast_to_room m msg rid sendOk now).2.2 =
      ms.filter (fun c => sendAttemptFail m.active_connections sendOk c) ∧
    (broadcast_to_room m msg rid sendOk now).1 =
      (ms.filter (fun c => sendAttemptFail m.active_connections sendOk c)).foldl
        (fun acc cid => disconnect acc cid)
        (ms.foldl (bStep sendOk now) (m, [], [])).1 := by
  unfold broadcast_to_room
  simp only [h]
  obtain ⟨h1, h2, h3, h4, h5⟩ := bFold_spec sendOk now ms m [] []
  rw [List.nil_append] at h4 h5
  rw [h4, h5]
  exact ⟨rfl, rfl, rfl⟩

theorem connect_result (m : ConnectionManager) (ws : Nat) (c fresh : String)
    (u rid : Option Int) (now : Nat) (hc : ¬ c = "") :
    connect m ws (some c) fresh u rid now =
      (c,
       { active_connections := insertA c ws m.active_connections,
         room_connections :=
           if truthy rid then indexAdd (rid.getD 0) c m.room_connections
           else m.room_connections,
         user_connections :=
           if truthy u then indexAdd (u.getD 0) c m.user_connections
           else m.user_connections,
         connection_info := insertA c ⟨u, rid, now, now⟩ m.connection_info }) := by
  unfold connect
  dsimp only
  rw [if_neg hc]

theorem connect_self_fresh (m : ConnectionManager) (ws : Nat) (c : String)
    (u rid : Option Int) (now : Nat) :
    connect m ws (some c) c u rid now =
      (c,
       { active_connections := insertA c ws m.active_connections,
         room_connections :=
           if truthy rid then indexAdd (rid.getD 0) c m.room_connections
           else m.room_connections,
         user_connections :=
           if truthy u then indexAdd (u.getD 0) c m.user_connections
           else m.user_connections,
         connection_info := insertA c ⟨u, rid, now, now⟩ m.connection_info }) := by
  unfold connect
  dsimp only
  rw [ite_self]

theorem join_room_found (m : ConnectionManager) (cid : String) (rid : Int)
    (h : lookupA cid m.active_connections ≠ none) :
    join_room m cid rid =
      (true,
       { m with
         room_connections := indexAdd rid cid m.room_connections,
         connection_info :=
           match lookupA cid m.connection_info with
           | some r =>
             insertA cid { r with room_id := some rid } m.connection_info
           | none => m.connection_info }) := by
  unfold join_room
  rw [if_neg h]

theorem disconnect_found (m : ConnectionManager) (cid : String)
    (h : lookupA cid m.active_connections ≠ none) :
    disconnect m cid =
      { active_connections := eraseA cid m.active_connections,
        room_connections :=
          indexRemove
            (match lookupA cid m.connection_info with
             | some r => r.room_id
             | none => none)
            cid m.room_connections,
        user_connections :=
          indexRemove
            (match lookupA cid m.connection_info with
             | some r => r.user_id
             | none => none)
            cid m.user_connections,
        connection_info := eraseA cid m.connection_info } := by
  unfold disconnect
  rw [if_neg h]

theorem join_room_fresh_entry (m1 : ConnectionManager) (c : String) (r : Int)
    (ha : lookupA c m1.active_connections ≠ none)
    (hroom : lookupA r m1.room_connections = none) :
    (join_room m1 c r).2.active_connections = m1.active_connections ∧
    (join_room m1 c r).2.room_connections = insertA r [c] m1.room_connections := by
  rw [join_room_found m1 c r ha]
  constructor
  · rfl
  · dsimp only
    unfold indexAdd
    simp only [hroom]
    rfl

theorem join_room_info_update (m1 : ConnectionManager) (c : String) (r : Int)
    (ha : lookupA c m1.active_connections ≠ none) (ci : ConnInfo)
    (hi : lookupA c m1.connection_info = some ci) :
    lookupA c (join_room m1 c r).2.connection_info =
      some { ci with room_id := some r } := by
  rw [join_room_found m1 c r ha]
  dsimp only
  simp only [hi]
  exact lookupA_insertA_self c _ m1.connection_info

theorem disconnect_solo_room (m2 : ConnectionManager) (c : String) (r : Int)
    (ha : lookupA c m2.active_connections ≠ none) (ci : ConnInfo)
    (hi : lookupA c m2.connection_info = some ci) (hci : ci.room_id = some r)
    (hr0 : r ≠ 0) (hsolo : lookupA r m2.room_connections = some [c]) :
    lookupA r (disconnect m2 c).room_connections = none := by
  rw [disconnect_found m2 c ha]
  dsimp only
  simp only [hi, hci]
  unfold indexRemove
  have ht : truthy (some r) = true := by
    simp [truthy, hr0]
  simp only [ht, if_true, Option.getD_some, hsolo]
  simp only [List.mem_singleton, if_pos, removeS]
  simp [lookupA_eraseA_self]

/-- C1: the claimed invariant — every id in a room/user index entry has a live
handle and no stored set is empty — is broken by the code: after connect c,
join_room c 5, join_room c 7, disconnect c, room 5 still stores {c} although
c has no handle any more, because join_room never removes the previous room
and disconnect cleans only the room recorded in connection_info. -/
theorem room_index_dangling_client :
    lookupA 5 (runOps C1trace).room_connections = some ["c"] ∧
    lookupA "c" (runOps C1trace).active_connections = none ∧
    ¬ registryInvariant (runOps C1trace) := by
  refine ⟨by decide, by decide, ?_⟩
  unfold registryInvariant indexSubsetActive noEmptyIndexEntry
  decide

/-- C2: joining room 5 and then room 7 does not move the connection — the code
leaves c a member of both room 5 and room 7 (join_room only adds), while
connection_info records room 7; the claim that room 5 no longer contains c is
false on the code. -/
theorem join_room_keeps_stale_membership :
    "c" ∈ membersOf 5 (runOps C2trace) ∧
    "c" ∈ membersOf 7 (runOps C2trace) ∧
    (lookupA "c" (runOps C2trace).connection_info).map ConnInfo.room_id =
      some (some 7) := by
  decide

/-- C3: broadcasting to a room whose entry holds the member list ms (no
duplicates) delivers exactly to the members whose handle is live and whose
send succeeds — one failing send does not abort the others — and the members
whose send fails are collected once each (no duplicates) and are each removed
from the handle map by the cleanup pass. -/
theorem broadcast_to_room_isolation
    (m : ConnectionManager) (message : Nat) (room_id : Int) (ms : List String)
    (sendOk : Nat → Bool) (now : Nat)
    (hms : lookupA room_id m.room_connections = some ms) (hnd : ms.Nodup) :
    (broadcast_to_room m message room_id sendOk now).2.1 =
      ms.filter (fun c => sendAttemptOk m.active_connections sendOk c) ∧
    (broadcast_to_room m message room_id sendOk now).2.2 =
      ms.filter (fun c => sendAttemptFail m.active_connections sendOk c) ∧
    ((broadcast_to_room m message room_id sendOk now).2.2).Nodup ∧
    (∀ c ∈ (broadcast_to_room m message room_id sendOk now).2.2,
      lookupA c ((broadcast_to_room m message room_id sendOk now).1).active_connections
        = none) := by
  obtain ⟨h1, h2, h3⟩ := broadcast_to_room_eq m message room_id sendOk now ms hms
  refine ⟨h1, h2, ?_, ?_⟩
  · rw [h2]
    exact hnd.filter _
  · intro c hc
    rw [h2] at hc
    rw [h3]
    exact foldl_disconnect_none _ _ c hc

/-- C3 witness: room 2 holds a and b (live, sends succeed) and s whose handle
12 fails to send; the broadcast delivers to a and b only and s is cleaned. -/
theorem broadcast_to_room_isolation_witness :
    lookupA 2 wBroadcastMgr.room_connections = some ["a", "b", "s"] ∧
    (["a", "b", "s"] : List String).Nodup ∧
    ((broadcast_to_room wBroadcastMgr 0 2 wSendOk 5).2.1 =
      ["a", "b", "s"].filter
        (fun c => sendAttemptOk wBroadcastMgr.active_connections wSendOk c) ∧
    (broadcast_to_room wBroadcastMgr 0 2 wSendOk 5).2.2 =
      ["a", "b", "s"].filter
        (fun c => sendAttemptFail wBroadcastMgr.active_connections wSendOk c) ∧
    ((broadcast_to_room wBroadcastMgr 0 2 wSendOk 5).2.2).Nodup ∧
    (∀ c ∈ (broadcast_to_room wBroadcastMgr 0 2 wSendOk 5).2.2,
      lookupA c ((broadcast_to_room wBroadcastMgr 0 2 wSendOk 5).1).active_connections
        = none)) :=
  ⟨by decide, by decide,
   broadcast_to_room_isolation wBroadcastMgr 0 2 ["a", "b", "s"] wSendOk 5
     (by decide) (by decide)⟩

/-- C4: disconnect is idempotent — after a first disconnect of cid, the id is
absent from active_connections, so a second disconnect of the same id takes
the not-found early-return branch (the NotFound outcome) and returns all four
registry maps exactly as the first call left them. -/
theorem disconnect_idempotent (m : ConnectionManager) (cid : String) :
    lookupA cid (disconnect m cid).active_connections = none ∧
    disconnect (disconnect m cid) cid = disconnect m cid :=
  ⟨disconnect_active_none m cid,
   disconnect_not_found (disconnect m cid) cid (disconnect_active_none m cid)⟩

/-- C5: the handle map and the metadata map are inserted into and removed
from together: each single operation preserves equality of the key lists of
active_connections and connection_info, and the equality holds after every
sequence of operations from the empty manager. -/
theorem active_and_info_keys_agree :
    (∀ (m : ConnectionManager) (op : Op), keysEq m → keysEq (applyOp m op)) ∧
    (∀ ops : List Op, keysEq (runOps ops)) :=
  ⟨keysEq_applyOp, keysEq_runOps⟩

/-- C5 witness: the key sets agree on a concrete trace, and a concrete single
disconnect step preserves the agreement. -/
theorem active_and_info_keys_agree_witness :
    keysEq (runOps [Op.conn "a" 0 none none, Op.joinR "a" 1]) ∧
    keysEq (applyOp (runOps [Op.conn "a" 0 none none]) (Op.disc "a")) :=
  ⟨active_and_info_keys_agree.2 [Op.conn "a" 0 none none, Op.joinR "a" 1],
   active_and_info_keys_agree.1 (runOps [Op.conn "a" 0 none none]) (Op.disc "a")
     (by unfold keysEq; decide)⟩

/-- C6: leave_room for a client that is not a member of the room's entry
(including the case where the room has no entry at all) returns false and
leaves the registry completely unchanged. -/
theorem leave_room_not_member_noop (m : ConnectionManager) (client_id : String)
    (room_id : Int) (h : client_id ∉ membersOf room_id m) :
    leave_room m client_id room_id = (false, m) := by
  unfold membersOf at h
  cases hr : lookupA room_id m.room_connections with
  | none =>
    unfold leave_room
    simp only [hr]
  | some ms =>
    rw [hr] at h
    simp only [Option.getD_some] at h
    unfold leave_room
    simp only [hr, h, if_false]

/-- C6 witness: client b is the sole member of room 1; a leave_room for the
non-member a returns false and changes nothing. -/
theorem leave_room_not_member_noop_witness :
    "a" ∉ membersOf 1 wm6 ∧ leave_room wm6 "a" 1 = (false, wm6) :=
  ⟨by decide, leave_room_not_member_noop wm6 "a" 1 (by decide)⟩

/-- C7 counterexample: after one connect and one disconnect, one connection
was ever registered but total_connections reports 0 — the field is the current
size of connection_info, not a count of connections ever registered. -/
theorem get_connections_info_total_not_ever :
    numConnects C7trace = 1 ∧
    (get_connections_info (runOps C7trace)).total_connections = 0 ∧
    (get_connections_info (runOps C7trace)).total_connections ≠
      numConnects C7trace := by
  decide

/-- C7 amended: get_connections_info reads the registry without mutating it
(it is a pure function of the state) and returns total_connections equal to
the number of currently registered metadata records — which on every reachable
state equals active_connections, the number of live handles — and a per-room
map assigning each room entry the size of its member set. -/
theorem get_connections_info_counts (ops : List Op) :
    (get_connections_info (runOps ops)).total_connections =
      (get_connections_info (runOps ops)).active_connections ∧
    (get_connections_info (runOps ops)).active_connections =
      (runOps ops).active_connections.length ∧
    (get_connections_info (runOps ops)).connections_by_room =
      (runOps ops).room_connections.map (fun p => (p.1, p.2.length)) := by
  refine ⟨?_, rfl, rfl⟩
  have h := keysEq_runOps ops
  unfold keysEq at h
  have h2 : (runOps ops).active_connections.length =
      (runOps ops).connection_info.length := by
    have h3 := congrArg List.length h
    simpa [keysA] using h3
  exact h2.symm

/-- C8: a client connects with no initial room, joins room r (previously
without an entry, so the client is its only member) and disconnects without
leaving: the room entry is pruned from room_connections, and a subsequent
broadcast_to_room for r takes the early return — it delivers to zero
recipients, cleans nothing, and returns the registry unchanged. -/
theorem disconnect_prunes_solo_room
    (m : ConnectionManager) (c : String) (ws : Nat) (u : Option Int) (r : Int)
    (message : Nat) (sendOk : Nat → Bool) (now tcon : Nat)
    (hr0 : r ≠ 0) (hroom : lookupA r m.room_connections = none) :
    lookupA r
      (disconnect (join_room (connect m ws (some c) c u none tcon).2 c r).2
        c).room_connections = none ∧
    broadcast_to_room
      (disconnect (join_room (connect m ws (some c) c u none tcon).2 c r).2 c)
      message r sendOk now =
      (disconnect (join_room (connect m ws (some c) c u none tcon).2 c r).2 c,
       [], []) := by
  have hA1 : lookupA c ((connect m ws (some c) c u none tcon).2).active_connections
      = some ws := by
    rw [connect_self_fresh m ws c u none tcon]
    exact lookupA_insertA_self c ws m.active_connections
  have hI1 : lookupA c ((connect m ws (some c) c u none tcon).2).connection_info
      = some ⟨u, none, tcon, tcon⟩ := by
    rw [connect_self_fresh m ws c u none tcon]
    exact lookupA_insertA_self c _ m.connection_info
  have hR1 : ((connect m ws (some c) c u none tcon).2).room_connections
      = m.room_connections := by
    rw [connect_self_fresh m ws c u none tcon]
    rfl
  have hA1' : lookupA c ((connect m ws (some c) c u none tcon).2).active_connections
      ≠ none := by
    simp [hA1]
  obtain ⟨hJA, hJR⟩ :=
    join_room_fresh_entry (connect m ws (some c) c u none tcon).2 c r hA1'
      (by rw [hR1]; exact hroom)
  have hJI :=
    join_room_info_update (connect m ws (some c) c u none tcon).2 c r hA1'
      ⟨u, none, tcon, tcon⟩ hI1
  have hA2' :
      lookupA c ((join_room (connect m ws (some c) c u none tcon).2 c r).2).active_connections
        ≠ none := by
    rw [hJA]
    exact hA1'
  have hsolo :
      lookupA r ((join_room (connect m ws (some c) c u none tcon).2 c r).2).room_connections
        = some [c] := by
    rw [hJR]
    exact lookupA_insertA_self r [c] _
  have hkey :=
    disconnect_solo_room (join_room (connect m ws (some c) c u none tcon).2 c r).2
      c r hA2' _ hJI rfl hr0 hsolo
  refine ⟨hkey, ?_⟩
  unfold broadcast_to_room
  simp only [hkey]

/-- C8 witness: from the empty manager, client a connects, joins room 1 alone
and disconnects; room 1 is pruned and a broadcast to room 1 is a no-op. -/
theorem disconnect_prunes_solo_room_witness :
    (1 : Int) ≠ 0 ∧
    lookupA 1 initManager.room_connections = none ∧
    (lookupA 1
      (disconnect (join_room (connect initManager 0 (some "a") "a" none none 0).2 "a" 1).2
        "a").room_connections = none ∧
    broadcast_to_room
      (disconnect (join_room (connect initManager 0 (some "a") "a" none none 0).2 "a" 1).2 "a")
      0 1 (fun _ => true) 0 =
      (disconnect (join_room (connect initManager 0 (some "a") "a" none none 0).2 "a" 1).2 "a",
       [], [])) :=
  ⟨by decide, by decide,
   disconnect_prunes_solo_room initManager "a" 0 none 1 0 (fun _ => true) 0 0
     (by decide) (by decide)⟩

/-- C10: connect with a client_id equal to an already-registered id neither
fails nor generates a fresh id — it returns the same id, silently overwrites
the stored handle and the metadata record, and leaves every previous
room/user index membership of that id in place (no cleanup of old entries). -/
theorem connect_existing_keeps_indices
    (m : ConnectionManager) (ws : Nat) (cid fresh : String) (u rid : Option Int)
    (now : Nat) (hne : cid ≠ "")
    (hreg : lookupA cid m.active_connections ≠ none) :
    (connect m ws (some cid) fresh u rid now).1 = cid ∧
    lookupA cid (connect m ws (some cid) fresh u rid now).2.active_connections =
      some ws ∧
    lookupA cid (connect m ws (some cid) fresh u rid now).2.connection_info =
      some ⟨u, rid, now, now⟩ ∧
    (∀ r : Int, cid ∈ membersOf r m →
      cid ∈ membersOf r (connect m ws (some cid) fresh u rid now).2) ∧
    (∀ uid : Int, cid ∈ userMembersOf uid m →
      cid ∈ userMembersOf uid (connect m ws (some cid) fresh u rid now).2) := by
  rw [connect_result m ws cid fresh u rid now hne]
  refine ⟨rfl, ?_, ?_, ?_, ?_⟩
  · exact lookupA_insertA_self cid ws m.active_connections
  · exact lookupA_insertA_self cid _ m.connection_info
  · intro r hr
    unfold membersOf at hr ⊢
    dsimp only
    by_cases ht : truthy rid = true
    · rw [if_pos ht]
      exact indexAdd_mem_mono (rid.getD 0) cid cid m.room_connections r hr
    · rw [if_neg ht]
      exact hr
  · intro uid hu
    unfold userMembersOf at hu ⊢
    dsimp only
    by_cases ht : truthy u = true
    · rw [if_pos ht]
      exact indexAdd_mem_mono (u.getD 0) cid cid m.user_connections uid hu
    · rw [if_neg ht]
      exact hu

/-- C10 witness: client a is registered and a member of room 3; a second
connect with the same id a (fresh id zzz unused), new handle 9, user 4 and
room 5 returns a, overwrites handle and record, and a stays in room 3. -/
theorem connect_existing_keeps_indices_witness :
    ("a" : String) ≠ "" ∧
    lookupA "a" wm10.active_connections ≠ none ∧
    (connect wm10 9 (some "a") "zzz" (some 4) (some 5) 7).1 = "a" ∧
    lookupA "a"
      (connect wm10 9 (some "a") "zzz" (some 4) (some 5) 7).2.active_connections
      = some 9 ∧
    lookupA "a"
      (connect wm10 9 (some "a") "zzz" (some 4) (some 5) 7).2.connection_info
      = some ⟨some 4, some 5, 7, 7⟩ ∧
    "a" ∈ membersOf 3 (connect wm10 9 (some "a") "zzz" (some 4) (some 5) 7).2 :=
  ⟨by decide, by decide,
   (connect_existing_keeps_indices wm10 9 "a" "zzz" (some 4) (some 5) 7
     (by decide) (by decide)).1,
   (connect_existing_keeps_indices wm10 9 "a" "zzz" (some 4) (some 5) 7
     (by decide) (by decide)).2.1,
   (connect_existing_keeps_indices wm10 9 "a" "zzz" (some 4) (some 5) 7
     (by decide) (by decide)).2.2.1,
   (connect_existing_keeps_indices wm10 9 "a" "zzz" (some 4) (some 5) 7
     (by decide) (by decide)).2.2.2.1 3 (by decide)⟩

end WSManager
